import Mathlib

/-!
Verification of the WebPA group-contribution scoring engine of
`webpamanager.py` (canvas-helpers). The definitions below are a shallow
embedding of the processing path of that script: spreadsheet-form ingestion
and validation (`GroupResponseProcessor.get_spreadsheets`), quiz ingestion
(`GroupResponseProcessor.get_quizzes`), and the pandas aggregation pipeline
that turns the collected ratings into adjusted marks (steps 1-8 at the end
of the script). Python floats are modelled by exact rationals; pandas NaN
values that arise from degenerate aggregations are modelled by `Option`.
-/

namespace WebPA

/- Batteries marks the arithmetic on `Rat` as irreducible, which blocks
elaborator-side evaluation of concrete instances; restore default
reducibility locally so that `decide` can evaluate the embedding. -/

attribute [local semireducible] Rat.mul Rat.add Rat.inv Rat.sub

/-- Banker's rounding (round-half-to-even) on rationals. This is the
rounding used both by Python's built-in `round` (applied to bounded rating
scores) and by the pandas / numpy `Series.round` call that rounds final
marks. -/
def roundHalfEven (q : ℚ) : ℤ :=
  let f : ℤ := ⌊q⌋
  if q - f < 1 / 2 then f
  else if 1 / 2 < q - f then f + 1
  else if f % 2 = 0 then f else f + 1

/-- The clamp used by the score-bounding operation: `max(min(score, 5), 1)`
(webpamanager.py lines 641 and 831). -/
def clamp15 (q : ℚ) : ℚ := max (min q 5) 1

/-- `bounded_score = round(max(min(score, 5), 1))`: the score-bounding
operation shared by the spreadsheet adapter (line 641) and both quiz
adapters (line 831). Python's `round` is round-half-to-even. -/
def bounded (q : ℚ) : ℤ := roundHalfEven (clamp15 q)

/-- The group roster: Canvas group id (an integer) mapped to the student
numbers of the group's members. Mirrors the `groups` dictionary produced by
`Utils.get_course_groups` (student numbers are treated as strings
throughout the source). Student names are omitted: the processing path
only ever uses `student_number`. -/
def Roster : Type := List (ℕ × List String)

/-- `groups[g]` as a partial lookup; `none` models Python's `KeyError`. -/
def lookupGroup (roster : Roster) (g : ℕ) : Option (List String) :=
  match roster with
  | [] => none
  | (k, ms) :: rest => if k = g then some ms else lookupGroup rest g

/-- `expected_submissions`: every student number appearing in any group
(webpamanager.py line 579 / 687). -/
def allMembers (roster : Roster) : List String :=
  match roster with
  | [] => []
  | (_, ms) :: rest => ms ++ allMembers rest

/-- The rating cell of one spreadsheet data row (`cells[3]`). `num`
corresponds to a Python `int` or `float` value; `invalid` to any other
non-empty content and `missing` to an empty cell. -/
inductive RatingCell
  | missing
  | invalid (text : String)
  | num (q : ℚ)
deriving DecidableEq

/-- One data row of a submitted WebPA spreadsheet form, i.e. one row after
the header row, restricted to the columns the source reads: the respondent
marker `cells[0]` (any non-empty content counts, line 622), the student
number `cells[2]` (already string-normalised; the source skips rows whose
student-number cell is empty, so `student_number = ""` models that case),
the rating `cells[3]` and the group number `cells[5]`. -/
structure Row where
  marked : Bool
  student_number : String
  rating : RatingCell
  grp : ℕ
deriving DecidableEq

/-- One candidate spreadsheet submission: the rater declared by the file
name (`expected_rater`, line 590), whether the exact WEBPA_HEADERS header
row was found, and the data rows following it. -/
structure Submission where
  expected_rater : String
  found_header : Bool
  rows : List Row
deriving DecidableEq

/-- The per-file mutable state of the validation loop in
`GroupResponseProcessor.get_spreadsheets` (lines 596-601 and 583). -/
structure FileState where
  invalid_file : Bool
  current_group : Option ℕ
  valid_members : List String
  current_rater : Option String
  current_responses : List (String × ℤ)
  current_errors : List String
  current_total : ℤ
  found_members : List String
deriving DecidableEq

def initState : FileState :=
  ⟨false, none, [], none, [], [], 0, []⟩

/-- Python truthiness of the `current_group` variable: `None` and `0` are
falsy (`if not current_group`, line 616). -/
def pyFalsyGroup : Option ℕ → Bool
  | none => true
  | some g => decide (g = 0)

/-- Python truthiness of the `current_rater` variable: `None` and the empty
string are falsy (`if not current_rater`, lines 623 and 661). -/
def pyFalsyStr : Option String → Bool
  | none => true
  | some s => decide (s = "")

/-- Decimal-free rendering of a rational for embedded messages. (The
source formats Python numbers with `%s`; the exact digits of a rendered
number are irrelevant to every claim.) -/
def ratStr (q : ℚ) : String :=
  if q.den = 1 then toString q.num else toString q.num ++ "/" ++ toString q.den

def respondentErr : String := "Incorrect or multiple respondents selected"

def invalidGroupMsg (g : ℕ) : String :=
  "Invalid group number (" ++ toString g ++ ")"

/-- The invalid/missing-rating message of line 635-637. The source wraps
the offending raw value in quote characters; the quotes are dropped here. -/
def ratingErrMsg (current_rater : Option String) (n : String) (c : RatingCell) : String :=
  (if current_rater = some n then "Own" else "Member " ++ n) ++ " rating " ++
    (match c with
     | RatingCell.missing => "missing"
     | RatingCell.invalid s => if s = "" then "missing" else "invalid (" ++ s ++ ")"
     | RatingCell.num _ => "invalid")

/-- The out-of-range correction warning of lines 643-644 / 833-834. -/
def boundingWarning (q : ℚ) (n : String) (b : ℤ) : String :=
  "Rating " ++ ratStr q ++ " for " ++ n ++ " is outside of range 1-5 (rounded to " ++
    toString b ++ ")"

/-- `set(expected) - set(found)` of line 653/854: expected members without
a rating row. (Python iterates a set in unspecified order; the roster
order is fixed here.) -/
def missingList (valid found : List String) : List String :=
  (valid.filter (fun m => !(found.contains m))).dedup

/-- `set(found) - set(expected)` of line 657/858: rated people who are not
members of the claimed group. -/
def addedList (valid found : List String) : List String :=
  (found.filter (fun m => !(valid.contains m))).dedup

def missingMsg (valid found : List String) : String :=
  "Group member(s) missing: " ++ String.intercalate ", " (missingList valid found)

def addedMsg (valid found : List String) : String :=
  "Non-group member(s) found: " ++ String.intercalate ", " (addedList valid found) ++ " – ignoring"

/-- `sorted(found_members) == sorted(valid_members)` (lines 650-652):
equality of the two lists as multisets. -/
def sameMultiset : List String → List String → Bool
  | [], ys => ys.isEmpty
  | x :: xs, ys => ys.contains x && sameMultiset xs (ys.erase x)

/-- `found_members.append(cells[2])`, line 614. -/
def stepFound (st : FileState) (row : Row) : FileState :=
  { st with found_members := st.found_members ++ [row.student_number] }

/-- Lines 616-618: on the first data row, the declared group number is
looked up in the roster; a group id absent from the roster raises an
uncaught `KeyError` (modelled as `none`), which aborts the entire run. -/
def stepGroup (roster : Roster) (st : FileState) (row : Row) : Option FileState :=
  if pyFalsyGroup st.current_group then
    match lookupGroup roster row.grp with
    | none => none
    | some ms => some { st with current_group := some row.grp, valid_members := ms }
  else some st

/-- Lines 622-628: the respondent-marker column. A marked row is accepted
as "me" only when no rater has been identified yet and the row's student
number matches the file's declared owner; otherwise the (deduplicated)
respondent error is recorded and the file marked invalid. -/
def stepRespondent (er : String) (st : FileState) (row : Row) : FileState :=
  if row.marked then
    if pyFalsyStr st.current_rater && decide (row.student_number = er) then
      { st with current_rater := some row.student_number }
    else
      { st with
        current_errors :=
          if st.current_errors.contains respondentErr then st.current_errors
          else st.current_errors ++ [respondentErr],
        invalid_file := true }
  else st

/-- Lines 631-633: a data row whose group cell differs from the group
declared by the first data row invalidates the file. -/
def stepGroupMismatch (st : FileState) (row : Row) : FileState :=
  if some row.grp ≠ st.current_group then
    { st with
        current_errors := st.current_errors ++ [invalidGroupMsg row.grp],
        invalid_file := true }
  else st

/-- Lines 634-638: a missing or non-numeric rating invalidates the file. -/
def stepRatingCheck (st : FileState) (row : Row) : FileState :=
  match row.rating with
  | RatingCell.num _ => st
  | c =>
    { st with
        current_errors := st.current_errors ++ [ratingErrMsg st.current_rater row.student_number c],
        invalid_file := true }

/-- Lines 640-647: when the file is not (yet) invalid and the rated person
is a member of the claimed group, the bounded score is recorded and summed;
an out-of-range raw score additionally records a correction warning. -/
def stepAppend (st : FileState) (row : Row) (ignored : Bool) : FileState :=
  if !(st.invalid_file || ignored) then
    match row.rating with
    | RatingCell.num q =>
      let b := bounded q
      let st1 :=
        if (b : ℚ) ≠ q then
          { st with current_errors := st.current_errors ++ [boundingWarning q row.student_number b] }
        else st
      { st1 with
          current_responses := st1.current_responses ++ [(row.student_number, b)],
          current_total := st1.current_total + b }
    | _ => st
  else st

/-- Processing of one data row (the body of the loop at lines 602-647,
restricted to rows after the header; a row with an empty student-number
cell is skipped, line 611-612). `none` models the uncaught `KeyError` of
the roster lookup. -/
def processRow (roster : Roster) (er : String) (st : FileState) (row : Row) : Option FileState :=
  if row.student_number = "" then some st
  else
    match stepGroup roster (stepFound st row) row with
    | none => none
    | some st1 =>
      let st2 := stepRespondent er st1 row
      let ignored := !(st2.valid_members.contains row.student_number)
      let st3 := stepGroupMismatch st2 row
      let st4 := stepRatingCheck st3 row
      some (stepAppend st4 row ignored)

def processRows (roster : Roster) (er : String) : FileState → List Row → Option FileState
  | st, [] => some st
  | st, row :: rest =>
    match processRow roster er st row with
    | none => none
    | some st1 => processRows roster er st1 rest

/-- Lines 649-659: after all rows, if a group was identified, compare
found and expected members as multisets; missing members invalidate the
file, extra non-members only record the "ignoring" warning. -/
def finishGroupCheck (st : FileState) : FileState :=
  if pyFalsyGroup st.current_group then st
  else if sameMultiset st.found_members st.valid_members then st
  else
    let st1 :=
      if missingList st.valid_members st.found_members ≠ [] then
        { st with
            current_errors := st.current_errors ++ [missingMsg st.valid_members st.found_members],
            invalid_file := true }
      else st
    if addedList st.valid_members st.found_members ≠ [] then
      { st1 with current_errors := st1.current_errors ++ [addedMsg st.valid_members st.found_members] }
    else st1

/-- Lines 661-666: a file in which no row was accepted as "me" is invalid;
the message depends on whether the header row was ever found. -/
def finishRaterCheck (found_header : Bool) (st : FileState) : FileState :=
  if pyFalsyStr st.current_rater then
    { st with
      current_errors := st.current_errors ++
        [if found_header then "Own name indicator missing"
         else "Incorrect (or edited example) rating form has been used"],
      invalid_file := true }
  else st

/-- One row of the master response-summary sheet (line 1230): rater,
subject, bounded rating, normalised rating, group. -/
structure SummaryRow where
  rater : String
  subject : String
  rating : ℤ
  normalised : ℚ
  grp : ℕ
deriving DecidableEq

/-- The normalised emission shared (as duplicated code) by all adapters
(lines 673-676, 870-872, 1106-1108): each recorded response becomes a
summary row whose `Normalised` value is the bounded score divided by the
rater's running total. -/
def emitNorm (rater : String) (g : ℕ) (resp : List (String × ℤ)) (total : ℤ) : List SummaryRow :=
  resp.map fun p => ⟨rater, p.1, p.2, (p.2 : ℚ) / (total : ℚ), g⟩

/-- Lines 673-676: an accepted file's responses are emitted with the
identified rater filled in and each score normalised by the rater's total. -/
def emitRows (st : FileState) : List SummaryRow :=
  emitNorm (st.current_rater.getD "") (st.current_group.getD 0) st.current_responses st.current_total

/-- The outcome of one candidate spreadsheet submission. -/
structure FileOutcome where
  accepted : Bool
  rows : List SummaryRow
  errors : List String
  rater : Option String
deriving DecidableEq

/-- Validation of one spreadsheet file (lines 583-679, after the
expected-submissions filter). `none` models the uncaught `KeyError` raised
when the first data row declares a group id absent from the roster. -/
def processFile (roster : Roster) (sub : Submission) : Option FileOutcome :=
  let rows := if sub.found_header then sub.rows else []
  match processRows roster sub.expected_rater initState rows with
  | none => none
  | some st =>
    let st1 := finishRaterCheck sub.found_header (finishGroupCheck st)
    if st1.invalid_file then some ⟨false, [], st1.current_errors, st1.current_rater⟩
    else some ⟨true, emitRows st1, st1.current_errors, st1.current_rater⟩

/-- The result of `GroupResponseProcessor.get_spreadsheets`: the summary
rows appended to the shared sheet, the accepted respondents, the invalid
(skipped) submitters, and the per-rater error lists. -/
structure BatchResult where
  summary : List SummaryRow
  respondents : List String
  invalid : List String
  errors : List (String × List String)
deriving DecidableEq

def emptyBatch : BatchResult := ⟨[], [], [], []⟩

/-- The whole-batch loop of `get_spreadsheets` (lines 578-683): files whose
name is not a roster student number are skipped into the invalid list
(lines 591-594); each remaining file is validated; an uncaught exception in
one file (`none`) aborts the entire batch. -/
def get_spreadsheets (roster : Roster) (subs : List Submission) : Option BatchResult :=
  match subs with
  | [] => some emptyBatch
  | sub :: rest =>
    if !(allMembers roster).contains sub.expected_rater then
      match get_spreadsheets roster rest with
      | none => none
      | some b => some { b with invalid := sub.expected_rater :: b.invalid }
    else
      match processFile roster sub with
      | none => none
      | some out =>
        match get_spreadsheets roster rest with
        | none => none
        | some b =>
          let b1 := if out.errors ≠ [] then { b with errors := (sub.expected_rater, out.errors) :: b.errors } else b
          if out.accepted then
            some { b1 with
                    summary := out.rows ++ b1.summary,
                    respondents := sub.expected_rater :: b1.respondents }
          else
            some { b1 with invalid := sub.expected_rater :: b1.invalid }

/-- One answer within a (classic) quiz submission, as consumed by
`GroupResponseProcessor.get_quizzes` (lines 817-846): either an answer to a
rating question (whose name is the rated student's number) or the free-text
comments answer. `value` is `some q` when Python's `float(answer_value)`
succeeds and `none` when it raises `ValueError`; `raw` is the raw answer
text used in the error message. -/
inductive QuizAnswer
  | rating (subject : String) (value : Option ℚ) (raw : String)
  | comment (text : String)
deriving DecidableEq

/-- One quiz submission: the authenticated submitter's student number, the
workflow-state check of line 782 (and the submission-history check of lines
806-815), the lateness check of lines 788-796, and the answers. -/
structure QuizSubmission where
  rater : String
  workflow_ok : Bool
  late : Bool
  answers : List QuizAnswer
deriving DecidableEq

/-- The per-submission mutable state of the quiz answer loop
(lines 800-804). -/
structure QuizState where
  current_responses : List (String × ℤ)
  current_errors : List String
  current_total : ℤ
  found_members : List String
  invalid_response : Bool
deriving DecidableEq

def initQuizState : QuizState := ⟨[], [], 0, [], false⟩

/-- Lines 817-846: processing of one quiz answer. A rated non-member is
silently skipped ("Ignoring rating by ... of non member", printed but not
recorded); a numeric rating is bounded and recorded (with a correction
warning when out of range); a non-numeric rating records an error and
invalidates the submission. Comment answers only print. -/
def processAnswer (valid : List String) (rater : String) (st : QuizState) (a : QuizAnswer) : QuizState :=
  match a with
  | QuizAnswer.comment _ => st
  | QuizAnswer.rating subj val raw =>
    let st := { st with found_members := st.found_members ++ [subj] }
    if !(valid.contains subj) then st
    else
      match val with
      | some q =>
        let b := bounded q
        let st1 :=
          if (b : ℚ) ≠ q then
            { st with current_errors := st.current_errors ++ [boundingWarning q subj b] }
          else st
        { st1 with
            current_responses := st1.current_responses ++ [(subj, b)],
            current_total := st1.current_total + b }
      | none =>
        { st with
            current_errors := st.current_errors ++
              [(if rater = subj then "Own" else "Member " ++ subj) ++ " rating " ++
                (if raw = "" then "missing" else "invalid (" ++ raw ++ ")")],
            invalid_response := true }

/-- Lines 850-861 (duplicated at 1086-1097 for new quizzes): the same
found-vs-expected member comparison as the spreadsheet path, guarded by the
truthiness of the group number parsed from the quiz title. -/
def quizGroupCheck (g : ℕ) (valid : List String) (st : QuizState) : QuizState :=
  if g = 0 then st
  else if sameMultiset st.found_members valid then st
  else
    let st1 :=
      if missingList valid st.found_members ≠ [] then
        { st with
            current_errors := st.current_errors ++ [missingMsg valid st.found_members],
            invalid_response := true }
      else st
    if addedList valid st.found_members ≠ [] then
      { st1 with current_errors := st1.current_errors ++ [addedMsg valid st.found_members] }
    else st1

/-- The fate of one candidate quiz submission. The four `skipped` outcomes
append the rater to the `invalid` list without recording errors (lines
774-796); `rejected` likewise but with recorded reasons (lines 873-875);
`accepted` emits normalised summary rows (lines 866-872). -/
inductive QuizOutcome
  | skippedNotInAnyGroup
  | skippedNotInGroup
  | skippedIncomplete
  | skippedLate
  | accepted (rows : List SummaryRow) (warnings : List String)
  | rejected (reasons : List String)
deriving DecidableEq

/-- One quiz submission's validation (`get_quizzes`, lines 756-875):
guards in source order — rater must appear in some roster group (line 774),
rater must be a member of the current quiz's group (line 778), the
submission must be complete (line 782) and on time (lines 788-796) — then
the answer loop, the member comparison, and emission. -/
def processQuizSubmission (expected valid : List String) (g : ℕ)
    (sub : QuizSubmission) : QuizOutcome :=
  if !(expected.contains sub.rater) then QuizOutcome.skippedNotInAnyGroup
  else if !(valid.contains sub.rater) then QuizOutcome.skippedNotInGroup
  else if !sub.workflow_ok then QuizOutcome.skippedIncomplete
  else if sub.late then QuizOutcome.skippedLate
  else
    let st := sub.answers.foldl (processAnswer valid sub.rater) initQuizState
    let st1 := quizGroupCheck g valid st
    if st1.invalid_response then QuizOutcome.rejected st1.current_errors
    else
      QuizOutcome.accepted (emitNorm sub.rater g st1.current_responses st1.current_total)
        st1.current_errors

/-- All summary rows of one group: pandas `data.groupby('Group')`. -/
def rowsOfGroup (rows : List SummaryRow) (g : ℕ) : List SummaryRow :=
  rows.filter fun r => r.grp = g

/-- The distinct rated subjects of a group: `unique_data['Subject']` from
`data.groupby('Group').nunique()` (lines 1252-1253). -/
def subjectsOf (rows : List SummaryRow) (g : ℕ) : List String :=
  ((rowsOfGroup rows g).map fun r => r.subject).dedup

/-- The distinct raters of a group: `unique_data['Rater']` (line 1254). -/
def ratersOf (rows : List SummaryRow) (g : ℕ) : List String :=
  ((rowsOfGroup rows g).map fun r => r.rater).dedup

/-- `webpa_adjustment_factor = count_group_members / count_webpa_submissions`
(line 1255). -/
def adjustment (rows : List SummaryRow) (g : ℕ) : ℚ :=
  ((subjectsOf rows g).length : ℚ) / ((ratersOf rows g).length : ℚ)

/-- `Score = sum of Normalised over (Group, Subject)` (line 1258). -/
def rawScore (rows : List SummaryRow) (g : ℕ) (s : String) : ℚ :=
  (((rowsOfGroup rows g).filter fun r => r.subject = s).map fun r => r.normalised).sum

/-- `Score *= Adjustment` (line 1259): the response-rate-adjusted
contribution score of one subject. -/
def scoreOf (rows : List SummaryRow) (g : ℕ) (s : String) : ℚ :=
  rawScore rows g s * adjustment rows g

/-- The per-subject score column of one group, one entry per distinct
subject, over which the group's standard deviation is taken (line 1275). -/
def groupScoreList (rows : List SummaryRow) (g : ℕ) : List ℚ :=
  (subjectsOf rows g).map fun s => scoreOf rows g s

def listMean (xs : List ℚ) : ℚ := xs.sum / (xs.length : ℚ)

/-- The square of pandas `Series.std()` (sample standard deviation,
`ddof=1`): `Σ (x - mean)² / (n - 1)`, and `none` — modelling the NaN that
pandas produces — when there are fewer than two data points. The square is
kept rather than the square root so that the embedding stays inside ℚ; the
threshold comparison below compares against the squared threshold, which is
equivalent. -/
def sampleVarianceSq (xs : List ℚ) : Option ℚ :=
  if xs.length < 2 then none
  else some ((xs.map fun x => (x - listMean xs) ^ 2).sum / ((xs.length : ℚ) - 1))

/-- `Variance >= args.minimum_variance` (line 1301), where `Variance` is
the standard deviation √v: for a NaN variance the pandas comparison is
False; otherwise √v ≥ t iff t ≤ 0 or t² ≤ v. -/
def stdAtLeast (v? : Option ℚ) (t : ℚ) : Bool :=
  match v? with
  | none => false
  | some v => decide (t ≤ 0 ∨ t ^ 2 ≤ v)

/-- The processing configuration: `--minimum-variance` (default 0.2),
`--mark-rounding` (default 0.5), `--maximum-mark` (default 100). -/
structure Config where
  minimum_variance : ℚ
  mark_rounding : ℚ
  maximum_mark : ℚ
deriving DecidableEq

/-- Lines 1300-1301: `Weighted` starts as `Original` and is multiplied by
`Score` exactly when the group's variance reaches the threshold. -/
def weightedOf (cfg : Config) (rows : List SummaryRow) (g : ℕ) (s : String) (original : ℚ) : ℚ :=
  if stdAtLeast (sampleVarianceSq (groupScoreList rows g)) cfg.minimum_variance then
    original * scoreOf rows g s
  else original

/-- Lines 1304-1308: `Mark` is `Weighted` capped at `maximum_mark` and then
rounded via `round(mark * (1 / mark_rounding)) / (1 / mark_rounding)`
(numpy round-half-to-even). -/
def resolvedMark (cfg : Config) (w : ℚ) : ℚ :=
  let capped := if w > cfg.maximum_mark then cfg.maximum_mark else w
  let factor := 1 / cfg.mark_rounding
  (roundHalfEven (capped * factor) : ℚ) / factor

/-- `math.isclose(a, b, abs_tol=0.00001)` with the default
`rel_tol = 1e-09`: `|a - b| <= max(rel_tol * max(|a|, |b|), abs_tol)`. -/
def isclose (a b : ℚ) : Bool :=
  decide (|a - b| ≤ max ((1 / 1000000000) * max |a| |b|) (1 / 100000))

/-- Lines 1314-1315: the `Scaled` column is `'Y'` (here `true`) iff
`Original` and `Weighted` are not close. -/
def scaledFlag (original w : ℚ) : Bool := !(isclose original w)

/-- One subject's row of the final calculation table (the columns relevant
to scaling). -/
structure FinalRow where
  original : ℚ
  weighted : ℚ
  mark : ℚ
  scaled : Bool
deriving DecidableEq

/-- Steps 6-7 of the pipeline for one subject with original mark `o`. -/
def finalRow (cfg : Config) (rows : List SummaryRow) (g : ℕ) (s : String) (o : ℚ) : FinalRow :=
  let w := weightedOf cfg rows g s o
  ⟨o, w, resolvedMark cfg w, scaledFlag o w⟩

/-- Lines 1328-1334: the spreadsheet-highlighting loop prints
"WARNING: Respondent who submitted an invalid form had their mark adjusted"
exactly for rows whose `Scaled` column is `'Y'` and whose subject appears
in the skipped-respondents list; it does not alter any mark. -/
def invalidAdjustedWarning (skipped : List String) (s : String) (fr : FinalRow) : Bool :=
  fr.scaled && skipped.contains s

/-- The running-total invariant of both validation loops: the rater's
running total equals the sum of the recorded bounded scores, and every
recorded score is at least 1. -/
def RespInv (resp : List (String × ℤ)) (total : ℤ) : Prop :=
  total = (resp.map Prod.snd).sum ∧ ∀ p ∈ resp, 1 ≤ p.2

/-- The default processing configuration: `--minimum-variance 0.2`,
`--mark-rounding 0.5`, `--maximum-mark 100`. -/
def cfgDefault : Config := ⟨1/5, 1/2, 100⟩

/-- Two raters in a two-member group who rated everyone equally: the
summary rows produce equal scores and hence zero variance. -/
def rowsC1 : List SummaryRow :=
  [⟨"1", "1", 3, 1/2, 1⟩, ⟨"1", "2", 3, 1/2, 1⟩, ⟨"2", "1", 3, 1/2, 1⟩, ⟨"2", "2", 3, 1/2, 1⟩]

/-- A single-member group's single accepted self-rating: one score data
point. -/
def rowsC3 : List SummaryRow := [⟨"1", "1", 3, 1, 1⟩]

/-- A configuration whose maximum mark (99.8) is not a multiple of the
rounding quantum (0.5). -/
def c4cfg : Config := ⟨1/5, 1/2, 499/5⟩

/-- Scenario C of the specification: a group of four in which only raters
"1" and "2" responded, each rating all four members 3 (normalised 1/4). -/
def rows4 : List SummaryRow :=
  [⟨"1", "1", 3, 1/4, 1⟩, ⟨"1", "2", 3, 1/4, 1⟩, ⟨"1", "3", 3, 1/4, 1⟩, ⟨"1", "4", 3, 1/4, 1⟩,
   ⟨"2", "1", 3, 1/4, 1⟩, ⟨"2", "2", 3, 1/4, 1⟩, ⟨"2", "3", 3, 1/4, 1⟩, ⟨"2", "4", 3, 1/4, 1⟩]

/-- A roster with a single one-member group. -/
def r7 : Roster := [(1, ["100"])]

/-- A form from roster student "100" whose first data row declares group 2,
which does not exist in `r7`. -/
def bad7 : Submission := ⟨"100", true, [⟨true, "100", RatingCell.num 3, 2⟩]⟩

/-- A fully valid form from roster student "100" for group 1. -/
def good7 : Submission := ⟨"100", true, [⟨true, "100", RatingCell.num 3, 1⟩]⟩

/-- A roster with two two-member groups. -/
def r9 : Roster := [(1, ["100", "101"]), (2, ["200", "201"])]

/-- A form submitted under roster student "100" (a member of group 1)
whose data rows declare group 2 and rate exactly group 2's members, plus
the rater's own marked row. -/
def sub9 : Submission := ⟨"100", true,
  [⟨false, "200", RatingCell.num 3, 2⟩, ⟨false, "201", RatingCell.num 4, 2⟩,
   ⟨true, "100", RatingCell.num 5, 2⟩]⟩

/-- A quiz submission used to instantiate the quiz-side membership guard. -/
def subW : QuizSubmission := ⟨"5", true, false, []⟩

/-- A roster with one three-member group. -/
def r10 : Roster := [(1, ["1", "2", "3"])]

/-- Student "1"'s form: only their own row, so members "2" and "3" are
missing and the form is rejected. -/
def subA : Submission := ⟨"1", true, [⟨true, "1", RatingCell.num 3, 1⟩]⟩

/-- Student "2"'s valid form rating "1" low and "2", "3" high. -/
def subB : Submission := ⟨"2", true,
  [⟨false, "1", RatingCell.num 1, 1⟩, ⟨true, "2", RatingCell.num 5, 1⟩,
   ⟨false, "3", RatingCell.num 5, 1⟩]⟩

/-- Student "3"'s valid form rating "1" low and "2", "3" high. -/
def subC : Submission := ⟨"3", true,
  [⟨false, "1", RatingCell.num 1, 1⟩, ⟨false, "2", RatingCell.num 5, 1⟩,
   ⟨true, "3", RatingCell.num 5, 1⟩]⟩

/-- The summary rows that `get_spreadsheets r10 [subA, subB, subC]`
produces (subA is rejected; subB and subC are accepted). -/
def rows10 : List SummaryRow :=
  [⟨"2", "1", 1, 1/11, 1⟩, ⟨"2", "2", 5, 5/11, 1⟩, ⟨"2", "3", 5, 5/11, 1⟩,
   ⟨"3", "1", 1, 1/11, 1⟩, ⟨"3", "2", 5, 5/11, 1⟩, ⟨"3", "3", 5, 5/11, 1⟩]

/-- A loop state in which group 1 with sole member "9" has been
identified. -/
def c8st : FileState := ⟨false, some 1, ["9"], none, [], [], 0, []⟩

/-- An unmarked data row rating member "9" with the out-of-range score 6. -/
def c8row : Row := ⟨false, "9", RatingCell.num 6, 1⟩

/-- The outcome of processing the valid single-member form `good7`. -/
def c5out : FileOutcome := ⟨true, [⟨"100", "100", 3, 1, 1⟩], [], some "100"⟩

/-- An end-of-file state in which only member "1" of the three-member
group 1 was rated. -/
def c6stA : FileState :=
  ⟨false, some 1, ["1", "2", "3"], some "1", [("1", 3)], [], 3, ["1"]⟩

/-- A mid-file state for group 2 before any row of interest. -/
def c6stB : FileState := ⟨false, some 2, ["200", "201"], none, [], [], 0, []⟩

/-- An unmarked row rating the non-member "100" with a valid score. -/
def c6row : Row := ⟨false, "100", RatingCell.num 5, 2⟩

/-- An end-of-file state in which both members of group 2 and the
non-member "100" were rated. -/
def c6stC : FileState :=
  ⟨false, some 2, ["200", "201"], some "100", [("200", 3), ("201", 4)], [], 7,
    ["200", "201", "100"]⟩

theorem roundHalfEven_intCast (n : ℤ) : roundHalfEven (n : ℚ) = n := by
  simp [roundHalfEven]

theorem floor_le_roundHalfEven (q : ℚ) : ⌊q⌋ ≤ roundHalfEven q := by
  unfold roundHalfEven
  dsimp only
  split
  · exact le_refl _
  · split
    · exact le_of_lt (lt_add_one _)
    · split
      · exact le_refl _
      · exact le_of_lt (lt_add_one _)

theorem roundHalfEven_le_ceil (q : ℚ) : roundHalfEven q ≤ ⌈q⌉ := by
  unfold roundHalfEven
  dsimp only
  have hfc : ⌊q⌋ ≤ ⌈q⌉ := Int.floor_le_ceil q
  have hlt : ∀ h : (⌊q⌋ : ℚ) < q, ⌊q⌋ + 1 ≤ ⌈q⌉ := by
    intro h
    exact Int.lt_ceil.mpr h
  split
  · exact hfc
  · rename_i h1
    push_neg at h1
    have hq : (⌊q⌋ : ℚ) < q := by
      have : (0 : ℚ) < 1 / 2 := by norm_num
      linarith
    split
    · exact hlt hq
    · split
      · exact hfc
      · exact hlt hq

theorem roundHalfEven_le_add_half (q : ℚ) : (roundHalfEven q : ℚ) ≤ q + 1 / 2 := by
  unfold roundHalfEven
  dsimp only
  have hfl : (⌊q⌋ : ℚ) ≤ q := Int.floor_le q
  split
  · linarith
  · rename_i h1
    push_neg at h1
    split
    · rename_i h2
      push_cast
      linarith
    · rename_i h2
      push_neg at h2
      have heq : q - (⌊q⌋ : ℚ) = 1 / 2 := le_antisymm h2 h1
      split
      · linarith
      · push_cast
        linarith

theorem roundHalfEven_mono {a b : ℚ} (h : a ≤ b) : roundHalfEven a ≤ roundHalfEven b := by
  rcases lt_or_eq_of_le (Int.floor_le_floor h) with hf | hf
  · calc roundHalfEven a ≤ ⌈a⌉ := roundHalfEven_le_ceil a
      _ ≤ ⌊a⌋ + 1 := Int.ceil_le_floor_add_one a
      _ ≤ ⌊b⌋ := hf
      _ ≤ roundHalfEven b := floor_le_roundHalfEven b
  · have hfr : a - (⌊a⌋ : ℚ) ≤ b - (⌊a⌋ : ℚ) := by linarith
    unfold roundHalfEven
    dsimp only
    rw [← hf]
    by_cases ha1 : a - (⌊a⌋ : ℚ) < 1 / 2
    · rw [if_pos ha1]
      by_cases hb1 : b - (⌊a⌋ : ℚ) < 1 / 2
      · rw [if_pos hb1]
      · rw [if_neg hb1]
        by_cases hb2 : 1 / 2 < b - (⌊a⌋ : ℚ)
        · rw [if_pos hb2]
          exact le_of_lt (lt_add_one _)
        · rw [if_neg hb2]
          by_cases hp : ⌊a⌋ % 2 = 0
          · rw [if_pos hp]
          · rw [if_neg hp]
            exact le_of_lt (lt_add_one _)
    · rw [if_neg ha1]
      push_neg at ha1
      have hb1 : ¬ (b - (⌊a⌋ : ℚ) < 1 / 2) := by
        push_neg
        linarith
      rw [if_neg hb1]
      by_cases ha2 : 1 / 2 < a - (⌊a⌋ : ℚ)
      · rw [if_pos ha2]
        have hb2 : 1 / 2 < b - (⌊a⌋ : ℚ) := lt_of_lt_of_le ha2 hfr
        rw [if_pos hb2]
      · rw [if_neg ha2]
        by_cases hb2 : 1 / 2 < b - (⌊a⌋ : ℚ)
        · rw [if_pos hb2]
          by_cases hp : ⌊a⌋ % 2 = 0
          · rw [if_pos hp]
            exact le_of_lt (lt_add_one _)
          · rw [if_neg hp]
        · rw [if_neg hb2]

theorem clamp15_mem (q : ℚ) : 1 ≤ clamp15 q ∧ clamp15 q ≤ 5 := by
  constructor
  · exact le_max_right _ _
  · exact max_le (min_le_right _ _) (by norm_num)

theorem one_le_bounded (q : ℚ) : 1 ≤ bounded q := by
  have h1 : (1 : ℚ) ≤ clamp15 q := (clamp15_mem q).1
  have : (1 : ℤ) ≤ ⌊clamp15 q⌋ := by
    rw [Int.le_floor]
    exact_mod_cast h1
  exact le_trans this (floor_le_roundHalfEven _)

theorem bounded_le_five (q : ℚ) : bounded q ≤ 5 := by
  have h5 : clamp15 q ≤ 5 := (clamp15_mem q).2
  have : ⌈clamp15 q⌉ ≤ (5 : ℤ) := by
    rw [Int.ceil_le]
    exact_mod_cast h5
  exact le_trans (roundHalfEven_le_ceil _) this

theorem bounded_intCast {n : ℤ} (h1 : 1 ≤ n) (h5 : n ≤ 5) : bounded (n : ℚ) = n := by
  have hc : clamp15 (n : ℚ) = (n : ℚ) := by
    unfold clamp15
    rw [min_eq_left (by exact_mod_cast h5), max_eq_left (by exact_mod_cast h1)]
  rw [bounded, hc, roundHalfEven_intCast]

theorem bounded_mono {a b : ℚ} (h : a ≤ b) : bounded a ≤ bounded b := by
  apply roundHalfEven_mono
  exact max_le_max (min_le_min_right _ h) (le_refl _)

/-- If the raw score lies outside the closed interval [1, 5] then the
bounded score (which always lies in [1, 5]) differs from it, so the source
records its correction warning (lines 642-644 / 832-834). -/
theorem bounded_ne_of_outside {q : ℚ} (h : q < 1 ∨ 5 < q) : (bounded q : ℚ) ≠ q := by
  rcases h with h | h
  · have h1 : (1 : ℚ) ≤ (bounded q : ℚ) := by exact_mod_cast one_le_bounded q
    intro heq
    rw [heq] at h1
    linarith
  · have h5 : (bounded q : ℚ) ≤ 5 := by exact_mod_cast bounded_le_five q
    intro heq
    rw [heq] at h5
    linarith

theorem list_sum_map_div (l : List ℚ) (c : ℚ) :
    (l.map fun x => x / c).sum = l.sum / c := by
  induction l with
  | nil => simp
  | cons x xs ih => simp [ih, add_div]

theorem list_sum_intCast (l : List ℤ) :
    ((l.sum : ℤ) : ℚ) = (l.map (fun n : ℤ => (n : ℚ))).sum := by
  induction l with
  | nil => simp
  | cons x xs ih => simp [ih]

theorem respInv_nil : RespInv [] 0 := by
  constructor
  · simp
  · intro p hp
    simp at hp

theorem respInv_append {resp : List (String × ℤ)} {total : ℤ} (h : RespInv resp total)
    (n : String) {b : ℤ} (hb : 1 ≤ b) : RespInv (resp ++ [(n, b)]) (total + b) := by
  constructor
  · simp [h.1]
  · intro p hp
    rcases List.mem_append.mp hp with hp | hp
    · exact h.2 p hp
    · simp at hp
      rw [hp]
      exact hb

theorem stepRespondent_resp (er : String) (st : FileState) (row : Row) :
    (stepRespondent er st row).current_responses = st.current_responses ∧
      (stepRespondent er st row).current_total = st.current_total := by
  unfold stepRespondent
  split
  · split <;> exact ⟨rfl, rfl⟩
  · exact ⟨rfl, rfl⟩

theorem stepGroupMismatch_resp (st : FileState) (row : Row) :
    (stepGroupMismatch st row).current_responses = st.current_responses ∧
      (stepGroupMismatch st row).current_total = st.current_total := by
  unfold stepGroupMismatch
  split <;> exact ⟨rfl, rfl⟩

theorem stepRatingCheck_resp (st : FileState) (row : Row) :
    (stepRatingCheck st row).current_responses = st.current_responses ∧
      (stepRatingCheck st row).current_total = st.current_total := by
  unfold stepRatingCheck
  split <;> exact ⟨rfl, rfl⟩

theorem stepGroup_resp {roster : Roster} {st st1 : FileState} {row : Row}
    (h : stepGroup roster st row = some st1) :
    st1.current_responses = st.current_responses ∧ st1.current_total = st.current_total := by
  unfold stepGroup at h
  split at h
  · split at h
    · exact absurd h (by simp)
    · cases h
      exact ⟨rfl, rfl⟩
  · cases h
    exact ⟨rfl, rfl⟩

theorem respInv_stepAppend {st : FileState} (row : Row) (ignored : Bool)
    (h : RespInv st.current_responses st.current_total) :
    RespInv (stepAppend st row ignored).current_responses (stepAppend st row ignored).current_total := by
  unfold stepAppend
  split
  · split
    · rename_i q _
      dsimp only
      split
      · exact respInv_append h row.student_number (one_le_bounded q)
      · exact respInv_append h row.student_number (one_le_bounded q)
    · exact h
  · exact h

theorem respInv_processRow {roster : Roster} {er : String} {st st' : FileState} {row : Row}
    (h : processRow roster er st row = some st')
    (hinv : RespInv st.current_responses st.current_total) :
    RespInv st'.current_responses st'.current_total := by
  unfold processRow at h
  split at h
  · cases h
    exact hinv
  · rcases hg : stepGroup roster (stepFound st row) row with _ | st1
    · rw [hg] at h
      exact absurd h (by simp)
    · rw [hg] at h
      simp only [] at h
      cases h
      have h0 : (stepFound st row).current_responses = st.current_responses ∧
          (stepFound st row).current_total = st.current_total := ⟨rfl, rfl⟩
      have h1 := stepGroup_resp hg
      have h2 := stepRespondent_resp er st1 row
      have h3 := stepGroupMismatch_resp (stepRespondent er st1 row) row
      have h4 := stepRatingCheck_resp (stepGroupMismatch (stepRespondent er st1 row) row) row
      apply respInv_stepAppend
      rw [h4.1, h4.2, h3.1, h3.2, h2.1, h2.2, h1.1, h1.2, h0.1, h0.2]
      exact hinv

theorem respInv_processRows {roster : Roster} {er : String} :
    ∀ (rows : List Row) (st st' : FileState),
      processRows roster er st rows = some st' →
      RespInv st.current_responses st.current_total →
      RespInv st'.current_responses st'.current_total := by
  intro rows
  induction rows with
  | nil =>
    intro st st' h hinv
    cases h
    exact hinv
  | cons row rest ih =>
    intro st st' h hinv
    unfold processRows at h
    rcases hr : processRow roster er st row with _ | st1
    · rw [hr] at h
      exact absurd h (by simp)
    · rw [hr] at h
      exact ih st1 st' h (respInv_processRow hr hinv)

theorem finishGroupCheck_resp (st : FileState) :
    (finishGroupCheck st).current_responses = st.current_responses ∧
      (finishGroupCheck st).current_total = st.current_total := by
  unfold finishGroupCheck
  split
  · exact ⟨rfl, rfl⟩
  · split
    · exact ⟨rfl, rfl⟩
    · split <;> split <;> exact ⟨rfl, rfl⟩

theorem finishRaterCheck_resp (b : Bool) (st : FileState) :
    (finishRaterCheck b st).current_responses = st.current_responses ∧
      (finishRaterCheck b st).current_total = st.current_total := by
  unfold finishRaterCheck
  split <;> exact ⟨rfl, rfl⟩

theorem respInv_processAnswer {valid : List String} {rater : String} {st : QuizState}
    (a : QuizAnswer) (h : RespInv st.current_responses st.current_total) :
    RespInv (processAnswer valid rater st a).current_responses
      (processAnswer valid rater st a).current_total := by
  unfold processAnswer
  split
  · exact h
  · rename_i subj val raw
    dsimp only
    split
    · exact h
    · split
      · rename_i q
        dsimp only
        split
        · exact respInv_append h subj (one_le_bounded q)
        · exact respInv_append h subj (one_le_bounded q)
      · exact h

theorem respInv_processAnswers {valid : List String} {rater : String} :
    ∀ (answers : List QuizAnswer) (st : QuizState),
      RespInv st.current_responses st.current_total →
      RespInv (answers.foldl (processAnswer valid rater) st).current_responses
        (answers.foldl (processAnswer valid rater) st).current_total := by
  intro answers
  induction answers with
  | nil =>
    intro st h
    exact h
  | cons a rest ih =>
    intro st h
    exact ih _ (respInv_processAnswer a h)

theorem quizGroupCheck_resp (g : ℕ) (valid : List String) (st : QuizState) :
    (quizGroupCheck g valid st).current_responses = st.current_responses ∧
      (quizGroupCheck g valid st).current_total = st.current_total := by
  unfold quizGroupCheck
  split
  · exact ⟨rfl, rfl⟩
  · split
    · exact ⟨rfl, rfl⟩
    · split <;> split <;> exact ⟨rfl, rfl⟩

theorem sameMultiset_right_sub :
    ∀ (xs ys : List String), sameMultiset xs ys = true → ∀ a ∈ ys, a ∈ xs := by
  intro xs
  induction xs with
  | nil =>
    intro ys h a ha
    unfold sameMultiset at h
    rw [List.isEmpty_iff] at h
    rw [h] at ha
    simp at ha
  | cons x xs ih =>
    intro ys h a ha
    unfold sameMultiset at h
    rw [Bool.and_eq_true] at h
    by_cases hax : a = x
    · rw [hax]
      exact List.mem_cons_self x xs
    · have : a ∈ ys.erase x := (List.mem_erase_of_ne hax).mpr ha
      exact List.mem_cons_of_mem x (ih (ys.erase x) h.2 a this)

theorem sameMultiset_left_sub :
    ∀ (xs ys : List String), sameMultiset xs ys = true → ∀ a ∈ xs, a ∈ ys := by
  intro xs
  induction xs with
  | nil =>
    intro ys h a ha
    simp at ha
  | cons x xs ih =>
    intro ys h a ha
    unfold sameMultiset at h
    rw [Bool.and_eq_true] at h
    rcases List.mem_cons.mp ha with hax | hax
    · rw [hax]
      simpa using h.1
    · exact List.mem_of_mem_erase (ih (ys.erase x) h.2 a hax)

theorem missingList_mem {valid found : List String} (h : missingList valid found ≠ []) :
    ∃ m ∈ valid, m ∉ found := by
  unfold missingList at h
  have h2 : valid.filter (fun m => !(found.contains m)) ≠ [] := by
    intro he
    rw [he] at h
    simp at h
  rcases List.exists_mem_of_ne_nil _ h2 with ⟨m, hm⟩
  have := List.mem_filter.mp hm
  refine ⟨m, this.1, ?_⟩
  have hb := this.2
  simp at hb
  exact hb

theorem addedList_mem {valid found : List String} (h : addedList valid found ≠ []) :
    ∃ m ∈ found, m ∉ valid := by
  unfold addedList at h
  have h2 : found.filter (fun m => !(valid.contains m)) ≠ [] := by
    intro he
    rw [he] at h
    simp at h
  rcases List.exists_mem_of_ne_nil _ h2 with ⟨m, hm⟩
  have := List.mem_filter.mp hm
  refine ⟨m, this.1, ?_⟩
  have hb := this.2
  simp at hb
  exact hb

theorem sameMultiset_false_of_missing {valid found : List String}
    (h : missingList valid found ≠ []) : sameMultiset found valid = false := by
  rcases missingList_mem h with ⟨m, hv, hf⟩
  by_contra hc
  rw [Bool.not_eq_false] at hc
  exact hf (sameMultiset_right_sub found valid hc m hv)

theorem sameMultiset_false_of_added {valid found : List String}
    (h : addedList valid found ≠ []) : sameMultiset found valid = false := by
  rcases addedList_mem h with ⟨m, hf, hv⟩
  by_contra hc
  rw [Bool.not_eq_false] at hc
  exact hv (sameMultiset_left_sub found valid hc m hf)

theorem one_le_total {l : List (String × ℤ)} (hne : l ≠ []) (hp : ∀ p ∈ l, 1 ≤ p.2) :
    1 ≤ (l.map Prod.snd).sum := by
  cases l with
  | nil => exact absurd rfl hne
  | cons a l =>
    have h0 : 0 ≤ (l.map Prod.snd).sum := by
      apply List.sum_nonneg
      intro x hx
      rcases List.mem_map.mp hx with ⟨p, hpmem, hpx⟩
      have := hp p (List.mem_cons_of_mem a hpmem)
      rw [← hpx]
      linarith
    have h1 : 1 ≤ a.2 := hp a (List.mem_cons_self a l)
    simp only [List.map_cons, List.sum_cons]
    linarith

theorem emitNorm_ratings (rater : String) (g : ℕ) (resp : List (String × ℤ)) (total : ℤ) :
    (emitNorm rater g resp total).map (fun r => r.rating) = resp.map Prod.snd := by
  unfold emitNorm
  rw [List.map_map]
  rfl

theorem emitNorm_norms (rater : String) (g : ℕ) (resp : List (String × ℤ)) (total : ℤ) :
    (emitNorm rater g resp total).map (fun r => r.normalised) =
      resp.map (fun p => (p.2 : ℚ) / (total : ℚ)) := by
  unfold emitNorm
  rw [List.map_map]
  rfl

theorem emitNorm_mem_normalised {rater : String} {g : ℕ} {resp : List (String × ℤ)} {total : ℤ}
    (h : RespInv resp total) {r : SummaryRow} (hr : r ∈ emitNorm rater g resp total) :
    r.normalised =
      (r.rating : ℚ) / ((((emitNorm rater g resp total).map (fun x => x.rating)).sum : ℤ) : ℚ) := by
  have hs : ((emitNorm rater g resp total).map (fun x => x.rating)).sum = total := by
    rw [emitNorm_ratings]
    exact h.1.symm
  rcases List.mem_map.mp hr with ⟨p, hpmem, hpr⟩
  rw [hs, ← hpr]

theorem emitNorm_sum_one {rater : String} {g : ℕ} {resp : List (String × ℤ)} {total : ℤ}
    (h : RespInv resp total) (hne : resp ≠ []) :
    ((emitNorm rater g resp total).map (fun r => r.normalised)).sum = 1 := by
  have htot : 1 ≤ total := by
    rw [h.1]
    exact one_le_total hne h.2
  have hT : ((total : ℤ) : ℚ) ≠ 0 := by
    have : (0 : ℚ) < ((total : ℤ) : ℚ) := by exact_mod_cast lt_of_lt_of_le Int.zero_lt_one htot
    linarith
  rw [emitNorm_norms]
  have hmm : resp.map (fun p => (p.2 : ℚ) / (total : ℚ)) =
      (resp.map (fun p => ((p.2 : ℤ) : ℚ))).map (fun x => x / (total : ℚ)) := by
    rw [List.map_map]
    rfl
  rw [hmm, list_sum_map_div]
  have hc : (resp.map (fun p => ((p.2 : ℤ) : ℚ))).sum = (((resp.map Prod.snd).sum : ℤ) : ℚ) := by
    rw [list_sum_intCast, List.map_map]
    rfl
  rw [hc, ← h.1, div_self hT]

/-- Claim C1, counterexample. The claim states that the `Scaled` flag is
true iff the final (capped and rounded) `Mark` differs from `Original`
beyond the tolerance. In this run the group's variance is 0, so
`Weighted = Original = 77.3`, yet rounding to the 0.5 quantum yields
`Mark = 77.5`: the mark differs from the original beyond the tolerance
while the flag is false, refuting the claim as stated. -/
theorem c1_counterexample :
    (finalRow cfgDefault rowsC1 1 "1" (773/10)).scaled = false ∧
      isclose (773/10) ((finalRow cfgDefault rowsC1 1 "1" (773/10)).mark) = false := by
  decide

/-- Claim C1, amended: the `Scaled` flag compares `Original` with the
pre-cap, pre-rounding `Weighted` value (source line 1314-1315), not with
the final `Mark`: it is true iff `Original` and `Weighted` are not within
the `math.isclose` tolerance (`abs_tol = 1e-5`, `rel_tol = 1e-9`). -/
theorem c1_scaled_iff_weighted (cfg : Config) (rows : List SummaryRow) (g : ℕ) (s : String)
    (o : ℚ) :
    (finalRow cfg rows g s o).scaled = !(isclose o ((finalRow cfg rows g s o).weighted)) := rfl

/-- Claim C3, counterexample. For a group with a single score data point
the source computes the group standard deviation with pandas `ddof=1`,
which yields NaN (modelled by `none`), not 0 as the claim states; the
NaN-guarded threshold comparison is False, so no scaling is applied and
the weighted and final marks equal the original. -/
theorem c3_counterexample :
    sampleVarianceSq (groupScoreList rowsC3 1) = none ∧
      (finalRow cfgDefault rowsC3 1 "1" 70).weighted = 70 ∧
      (finalRow cfgDefault rowsC3 1 "1" 70).mark = 70 := by
  decide

/-- Claim C3, amended: for every group with fewer than 2 score data points
the computed variance is NaN (`none`) — not 0 and not an exception — and
the threshold comparison on NaN is false, so no scaling is applied: the
weighted mark equals the original mark. -/
theorem c3_degenerate_variance (cfg : Config) (rows : List SummaryRow) (g : ℕ) (s : String)
    (o : ℚ) (h : (subjectsOf rows g).length < 2) :
    sampleVarianceSq (groupScoreList rows g) = none ∧ weightedOf cfg rows g s o = o := by
  have hlen : (groupScoreList rows g).length < 2 := by
    unfold groupScoreList
    rw [List.length_map]
    exact h
  have hv : sampleVarianceSq (groupScoreList rows g) = none := by
    unfold sampleVarianceSq
    rw [if_pos hlen]
  refine ⟨hv, ?_⟩
  unfold weightedOf
  rw [hv]
  simp [stdAtLeast]

theorem c3_degenerate_variance_witness :
    (subjectsOf rowsC3 1).length < 2 ∧
      (sampleVarianceSq (groupScoreList rowsC3 1) = none ∧
        weightedOf cfgDefault rowsC3 1 "1" 70 = 70) :=
  ⟨by decide, c3_degenerate_variance cfgDefault rowsC3 1 "1" 70 (by decide)⟩

/-- Claim C4, counterexample. With `mark_rounding = 0.5` and
`maximum_mark = 99.8` (not a multiple of the quantum), a weighted mark of
101 is capped to 99.8 and then rounded to 100, which exceeds
`maximum_mark` — refuting the claim's "never exceeds maximum_mark ...
including values of maximum_mark that are not themselves multiples of
mark_rounding". -/
theorem c4_counterexample : resolvedMark c4cfg 101 > c4cfg.maximum_mark := by
  decide

/-- Claim C4, amended: for every configuration with `mark_rounding > 0`
the resolved mark is an exact integer multiple of `mark_rounding`, and —
because the cap is applied before rounding — it never exceeds
`maximum_mark + mark_rounding / 2`, and never exceeds `maximum_mark`
whenever `maximum_mark` is itself a multiple of `mark_rounding` (as in the
default configuration, where 100 is a multiple of 0.5). -/
theorem c4_rounding_law (cfg : Config) (w : ℚ) (h : 0 < cfg.mark_rounding) :
    (∃ n : ℤ, resolvedMark cfg w = (n : ℚ) * cfg.mark_rounding) ∧
      resolvedMark cfg w ≤ cfg.maximum_mark + cfg.mark_rounding / 2 ∧
      (∀ k : ℤ, cfg.maximum_mark = (k : ℚ) * cfg.mark_rounding →
        resolvedMark cfg w ≤ cfg.maximum_mark) := by
  have hr : cfg.mark_rounding ≠ 0 := ne_of_gt h
  have hmark : resolvedMark cfg w =
      (roundHalfEven ((if w > cfg.maximum_mark then cfg.maximum_mark else w) *
        (cfg.mark_rounding)⁻¹) : ℚ) * cfg.mark_rounding := by
    unfold resolvedMark
    dsimp only
    rw [one_div, div_eq_mul_inv, inv_inv]
  have hcaple : (if w > cfg.maximum_mark then cfg.maximum_mark else w) ≤ cfg.maximum_mark ∨
      (if w > cfg.maximum_mark then cfg.maximum_mark else w) = w := by
    split
    · exact Or.inl (le_refl _)
    · exact Or.inr rfl
  have hcap : (if w > cfg.maximum_mark then cfg.maximum_mark else w) ≤ cfg.maximum_mark := by
    split
    · exact le_refl _
    · rename_i hh
      push_neg at hh
      exact hh
  refine ⟨⟨roundHalfEven ((if w > cfg.maximum_mark then cfg.maximum_mark else w) *
      (cfg.mark_rounding)⁻¹), hmark⟩, ?_, ?_⟩
  · rw [hmark]
    have hx := roundHalfEven_le_add_half
      ((if w > cfg.maximum_mark then cfg.maximum_mark else w) * (cfg.mark_rounding)⁻¹)
    have hm := mul_le_mul_of_nonneg_right hx (le_of_lt h)
    have hxr : ((if w > cfg.maximum_mark then cfg.maximum_mark else w) * (cfg.mark_rounding)⁻¹ +
        1 / 2) * cfg.mark_rounding =
        (if w > cfg.maximum_mark then cfg.maximum_mark else w) + cfg.mark_rounding / 2 := by
      field_simp
      ring
    rw [hxr] at hm
    linarith
  · intro k hk
    rw [hmark]
    have hkr : (if w > cfg.maximum_mark then cfg.maximum_mark else w) ≤ (k : ℚ) * cfg.mark_rounding := by
      rw [← hk]
      exact hcap
    have hlek : (if w > cfg.maximum_mark then cfg.maximum_mark else w) * (cfg.mark_rounding)⁻¹ ≤
        (k : ℚ) := by
      have := mul_le_mul_of_nonneg_right hkr (inv_nonneg.mpr (le_of_lt h))
      calc (if w > cfg.maximum_mark then cfg.maximum_mark else w) * (cfg.mark_rounding)⁻¹ ≤
          (k : ℚ) * cfg.mark_rounding * (cfg.mark_rounding)⁻¹ := this
        _ = (k : ℚ) := by field_simp
    have hceil : roundHalfEven ((if w > cfg.maximum_mark then cfg.maximum_mark else w) *
        (cfg.mark_rounding)⁻¹) ≤ k :=
      le_trans (roundHalfEven_le_ceil _) (Int.ceil_le.mpr hlek)
    have hcast : ((roundHalfEven ((if w > cfg.maximum_mark then cfg.maximum_mark else w) *
        (cfg.mark_rounding)⁻¹)) : ℚ) ≤ (k : ℚ) := by exact_mod_cast hceil
    have hfin := mul_le_mul_of_nonneg_right hcast (le_of_lt h)
    rw [← hk] at hfin
    exact hfin

theorem c4_rounding_law_witness :
    (0 : ℚ) < cfgDefault.mark_rounding ∧
      ((∃ n : ℤ, resolvedMark cfgDefault (773/10) = (n : ℚ) * cfgDefault.mark_rounding) ∧
        resolvedMark cfgDefault (773/10) ≤ cfgDefault.maximum_mark + cfgDefault.mark_rounding / 2 ∧
        (∀ k : ℤ, cfgDefault.maximum_mark = (k : ℚ) * cfgDefault.mark_rounding →
          resolvedMark cfgDefault (773/10) ≤ cfgDefault.maximum_mark)) :=
  ⟨by decide, c4_rounding_law cfgDefault (773/10) (by decide)⟩

/-- Claim C7 (code bug). A fully valid single file is processed normally,
but prepending a form whose first data row declares group 2 — absent from
the roster — makes the whole batch abort with an uncaught `KeyError`
(`groups[current_group]`, line 618, modelled by `none`): the valid file is
never processed, contradicting the per-submission failure-isolation
policy. -/
theorem c7_unknown_group_aborts_batch :
    get_spreadsheets r7 [good7] = some ⟨[⟨"100", "100", 3, 1, 1⟩], ["100"], [], []⟩ ∧
      get_spreadsheets r7 [bad7, good7] = none := by
  decide

/-- Claim C10. Student "1"'s own form is rejected (members missing), so
"1" appears only in the invalid list; yet the accepted ratings of "2" and
"3" still rate "1" as a subject, the group's variance passes the
threshold, and "1"'s weighted mark (210/11) is scaled away from the
original 70. The highlighting loop emits its warning for exactly this
combination (Scaled = Y and subject among the skipped respondents) but
does not prevent the adjustment. -/
theorem c10_invalid_respondent_still_scaled :
    get_spreadsheets r10 [subA, subB, subC] =
      some ⟨rows10, ["2", "3"], ["1"], [("1", ["Group member(s) missing: 2, 3"])]⟩ ∧
      (finalRow cfgDefault rows10 1 "1" 70).scaled = true ∧
      (finalRow cfgDefault rows10 1 "1" 70).weighted ≠ 70 ∧
      invalidAdjustedWarning ["1"] "1" (finalRow cfgDefault rows10 1 "1" 70) = true := by
  decide

/-- Claim C2. For every group with at least one summary row, every
subject's final score is the summed normalised score multiplied by the
adjustment factor `distinct subjects / distinct raters` (lines 1252-1259),
uniformly in the subject. -/
theorem c2_adjustment_factor (rows : List SummaryRow) (g : ℕ) (h : rowsOfGroup rows g ≠ [])
    (s : String) :
    scoreOf rows g s = rawScore rows g s *
      (((subjectsOf rows g).length : ℚ) / ((ratersOf rows g).length : ℚ)) := rfl

theorem c2_adjustment_factor_witness :
    (rowsOfGroup rows4 1 ≠ [] ∧ adjustment rows4 1 = 4 / 2) ∧
      scoreOf rows4 1 "1" = rawScore rows4 1 "1" *
        (((subjectsOf rows4 1).length : ℚ) / ((ratersOf rows4 1).length : ℚ)) :=
  ⟨⟨by decide, by decide⟩, c2_adjustment_factor rows4 1 (by decide) "1"⟩

/-- Claim C8. The bounding operation `round(clamp(score, 1, 5))`:
(1) always yields an integer in [1, 5]; (2) is a no-op on already-in-range
integer scores; (3) is monotonic; (4) satisfies clamp(6)=5, clamp(0)=1,
clamp(3)=3; and (5) on an out-of-range numeric rating of a group member the
spreadsheet validator records exactly the non-fatal correction warning and
the bounded response — leaving the invalid-file flag untouched, so bounding
never causes rejection. -/
theorem c8_bounding :
    (∀ q : ℚ, 1 ≤ bounded q ∧ bounded q ≤ 5) ∧
      (∀ n : ℤ, 1 ≤ n → n ≤ 5 → bounded (n : ℚ) = n) ∧
      (∀ a b : ℚ, a ≤ b → bounded a ≤ bounded b) ∧
      (bounded 6 = 5 ∧ bounded 0 = 1 ∧ bounded 3 = 3) ∧
      (∀ (roster : Roster) (er : String) (st : FileState) (row : Row) (q : ℚ),
        st.invalid_file = false →
        pyFalsyGroup st.current_group = false →
        st.current_group = some row.grp →
        row.marked = false →
        row.student_number ≠ "" →
        row.student_number ∈ st.valid_members →
        row.rating = RatingCell.num q →
        (q < 1 ∨ 5 < q) →
        processRow roster er st row = some { st with
          found_members := st.found_members ++ [row.student_number],
          current_errors := st.current_errors ++ [boundingWarning q row.student_number (bounded q)],
          current_responses := st.current_responses ++ [(row.student_number, bounded q)],
          current_total := st.current_total + bounded q }) := by
  refine ⟨fun q => ⟨one_le_bounded q, bounded_le_five q⟩,
    fun n h1 h5 => bounded_intCast h1 h5,
    fun a b hab => bounded_mono hab,
    ⟨by decide, by decide, by decide⟩, ?_⟩
  intro roster er st row q hinv hfal hcg hmarked hne hmem hrat hout
  have hcont : st.valid_members.contains row.student_number = true := by
    simpa using hmem
  have hbne : ((bounded q : ℤ) : ℚ) ≠ q := bounded_ne_of_outside hout
  have hfal2 : pyFalsyGroup (some row.grp) = false := by
    rw [← hcg]
    exact hfal
  simp only [processRow, stepFound, stepGroup, stepRespondent, stepGroupMismatch,
    stepRatingCheck, stepAppend, hne, hfal, hfal2, hcg, hmarked, hcont, hrat, hinv,
    if_neg hne]
  simp [hbne, hfal2, hinv, hmem]

theorem c8_bounding_witness :
    ((1 ≤ bounded (7/2) ∧ bounded (7/2) ≤ 5) ∧
      bounded ((3 : ℤ) : ℚ) = 3 ∧
      bounded 2 ≤ bounded 6 ∧
      (bounded 6 = 5 ∧ bounded 0 = 1 ∧ bounded 3 = 3)) ∧
      ((5 : ℚ) < 6 ∧
        processRow [] "x" c8st c8row = some { c8st with
          found_members := c8st.found_members ++ [c8row.student_number],
          current_errors := c8st.current_errors ++
            [boundingWarning 6 c8row.student_number (bounded 6)],
          current_responses := c8st.current_responses ++ [(c8row.student_number, bounded 6)],
          current_total := c8st.current_total + bounded 6 }) :=
  ⟨⟨c8_bounding.1 (7/2), c8_bounding.2.1 3 (by decide) (by decide),
    c8_bounding.2.2.1 2 6 (by decide), c8_bounding.2.2.2.1⟩,
   ⟨by decide,
    c8_bounding.2.2.2.2 [] "x" c8st c8row 6 rfl (by decide) rfl rfl (by decide)
      (by decide) rfl (Or.inr (by decide))⟩⟩

/-- Claim C5. For every accepted submission — spreadsheet or quiz — each
retained rating's normalised value is that rating's bounded score divided
by the sum of all bounded scores retained from the same rater, and for a
rater with at least one retained rating the normalised values sum to
exactly 1. -/
theorem c5_normalisation :
    (∀ (roster : Roster) (sub : Submission) (out : FileOutcome),
      processFile roster sub = some out → out.accepted = true →
      (∀ r ∈ out.rows,
        r.normalised = (r.rating : ℚ) / ((((out.rows.map (fun x => x.rating)).sum : ℤ) : ℚ))) ∧
      (out.rows ≠ [] → ((out.rows.map (fun r => r.normalised)).sum = 1))) ∧
    (∀ (expected valid : List String) (g : ℕ) (sub : QuizSubmission)
        (rows : List SummaryRow) (warns : List String),
      processQuizSubmission expected valid g sub = QuizOutcome.accepted rows warns →
      (∀ r ∈ rows,
        r.normalised = (r.rating : ℚ) / ((((rows.map (fun x => x.rating)).sum : ℤ) : ℚ))) ∧
      (rows ≠ [] → ((rows.map (fun r => r.normalised)).sum = 1))) := by
  constructor
  · intro roster sub out h hacc
    unfold processFile at h
    dsimp only at h
    rcases hpr : processRows roster sub.expected_rater initState
        (if sub.found_header then sub.rows else []) with _ | st
    · rw [hpr] at h
      exact absurd h (by simp)
    · rw [hpr] at h
      dsimp only at h
      have hInv : RespInv st.current_responses st.current_total :=
        respInv_processRows _ initState st hpr respInv_nil
      have e1 := finishRaterCheck_resp sub.found_header (finishGroupCheck st)
      have e2 := finishGroupCheck_resp st
      have hInv1 : RespInv
          (finishRaterCheck sub.found_header (finishGroupCheck st)).current_responses
          (finishRaterCheck sub.found_header (finishGroupCheck st)).current_total := by
        rw [e1.1, e2.1, e1.2, e2.2]
        exact hInv
      split at h
      · injection h with h
        rw [← h] at hacc
        simp at hacc
      · injection h with h
        rw [← h]
        constructor
        · intro r hr
          exact emitNorm_mem_normalised hInv1 hr
        · intro hne
          apply emitNorm_sum_one hInv1
          intro hres
          apply hne
          show emitNorm _ _ _ _ = []
          rw [hres]
          rfl
  · intro expected valid g sub rows warns h
    unfold processQuizSubmission at h
    split at h
    · exact QuizOutcome.noConfusion h
    · split at h
      · exact QuizOutcome.noConfusion h
      · split at h
        · exact QuizOutcome.noConfusion h
        · split at h
          · exact QuizOutcome.noConfusion h
          · dsimp only at h
            have hInv : RespInv
                ((sub.answers.foldl (processAnswer valid sub.rater) initQuizState).current_responses)
                ((sub.answers.foldl (processAnswer valid sub.rater) initQuizState).current_total) :=
              respInv_processAnswers sub.answers initQuizState respInv_nil
            have e1 := quizGroupCheck_resp g valid
              (sub.answers.foldl (processAnswer valid sub.rater) initQuizState)
            have hInv1 : RespInv
                ((quizGroupCheck g valid
                  (sub.answers.foldl (processAnswer valid sub.rater) initQuizState)).current_responses)
                ((quizGroupCheck g valid
                  (sub.answers.foldl (processAnswer valid sub.rater) initQuizState)).current_total) := by
              rw [e1.1, e1.2]
              exact hInv
            split at h
            · exact QuizOutcome.noConfusion h
            · injection h with h hw
              rw [← h]
              constructor
              · intro r hr
                exact emitNorm_mem_normalised hInv1 hr
              · intro hne
                apply emitNorm_sum_one hInv1
                intro hres
                apply hne
                show emitNorm _ _ _ _ = []
                rw [hres]
                rfl

theorem c5_normalisation_witness :
    (processFile r7 good7 = some c5out ∧ c5out.accepted = true) ∧
      ((∀ r ∈ c5out.rows,
        r.normalised = (r.rating : ℚ) / ((((c5out.rows.map (fun x => x.rating)).sum : ℤ) : ℚ))) ∧
       (c5out.rows ≠ [] → ((c5out.rows.map (fun r => r.normalised)).sum = 1))) :=
  ⟨⟨by decide, rfl⟩, c5_normalisation.1 r7 good7 c5out (by decide) rfl⟩

/-- Claim C6. (1) A submission that identified a group but is missing a
rating for at least one expected member is invalidated, with a reason
that is exactly the "Group member(s) missing: ..." message. (2) A data row
rating a non-member (with a numeric score, matching group, unmarked)
changes nothing but the found-members list: the rating is dropped and no
error is recorded. (3) When only non-members were found in excess (no one
missing), the finish step records exactly the "Non-group member(s) found:
... – ignoring" warning and leaves the invalid-file flag unchanged, so the
extra rating does not by itself reject the submission. -/
theorem c6_membership_rules :
    (∀ st : FileState,
      pyFalsyGroup st.current_group = false →
      missingList st.valid_members st.found_members ≠ [] →
      (finishGroupCheck st).invalid_file = true ∧
      missingMsg st.valid_members st.found_members ∈ (finishGroupCheck st).current_errors) ∧
    (∀ (roster : Roster) (er : String) (st : FileState) (row : Row) (q : ℚ),
      pyFalsyGroup st.current_group = false →
      st.current_group = some row.grp →
      row.marked = false →
      row.student_number ≠ "" →
      row.student_number ∉ st.valid_members →
      row.rating = RatingCell.num q →
      processRow roster er st row = some (stepFound st row)) ∧
    (∀ st : FileState,
      pyFalsyGroup st.current_group = false →
      missingList st.valid_members st.found_members = [] →
      addedList st.valid_members st.found_members ≠ [] →
      (finishGroupCheck st).invalid_file = st.invalid_file ∧
      (finishGroupCheck st).current_errors =
        st.current_errors ++ [addedMsg st.valid_members st.found_members]) := by
  refine ⟨?_, ?_, ?_⟩
  · intro st hfal hmiss
    have hsm := sameMultiset_false_of_missing hmiss
    unfold finishGroupCheck
    rw [if_neg (by simp [hfal]), if_neg (by simp [hsm]), if_pos hmiss]
    by_cases hadd : addedList st.valid_members st.found_members = []
    · rw [if_neg (by simp [hadd])]
      exact ⟨rfl, by simp⟩
    · rw [if_pos hadd]
      exact ⟨rfl, by simp⟩
  · intro roster er st row q hfal hcg hmarked hne hnmem hrat
    have hcont : st.valid_members.contains row.student_number = false := by
      simpa using hnmem
    have hfal2 : pyFalsyGroup (some row.grp) = false := by
      rw [← hcg]
      exact hfal
    simp only [processRow, stepFound, stepGroup, stepRespondent, stepGroupMismatch,
      stepRatingCheck, stepAppend, hfal2, hcg, hmarked, hcont, hrat, if_neg hne]
    simp
    intro _ hmem2
    exact absurd hmem2 hnmem
  · intro st hfal hmiss hadd
    have hsm := sameMultiset_false_of_added hadd
    unfold finishGroupCheck
    rw [if_neg (by simp [hfal]), if_neg (by simp [hsm]),
      if_neg (show ¬ (missingList st.valid_members st.found_members ≠ []) by simp [hmiss]),
      if_pos hadd]
    exact ⟨rfl, rfl⟩

theorem c6_membership_rules_witness :
    ((pyFalsyGroup c6stA.current_group = false ∧
        missingList c6stA.valid_members c6stA.found_members ≠ []) ∧
      (finishGroupCheck c6stA).invalid_file = true ∧
      missingMsg c6stA.valid_members c6stA.found_members ∈ (finishGroupCheck c6stA).current_errors) ∧
      (("100" ∉ c6stB.valid_members) ∧
        processRow [] "100" c6stB c6row = some (stepFound c6stB c6row)) ∧
      ((missingList c6stC.valid_members c6stC.found_members = [] ∧
        addedList c6stC.valid_members c6stC.found_members ≠ []) ∧
      (finishGroupCheck c6stC).invalid_file = c6stC.invalid_file ∧
      (finishGroupCheck c6stC).current_errors =
        c6stC.current_errors ++ [addedMsg c6stC.valid_members c6stC.found_members]) :=
  ⟨⟨⟨by decide, by decide⟩, c6_membership_rules.1 c6stA (by decide) (by decide)⟩,
   ⟨by decide, c6_membership_rules.2.1 [] "100" c6stB c6row 5 (by decide) rfl rfl
      (by decide) (by decide) rfl⟩,
   ⟨⟨by decide, by decide⟩, c6_membership_rules.2.2 c6stC (by decide) (by decide) (by decide)⟩⟩

/-- Claim C9. The spreadsheet adapter never rejects a submission because
the rater is not a member of the declared group: the form `sub9`, filed by
roster student "100" (group 1) but declaring group 2 and rating exactly
group 2's members plus the rater's own marked row, is accepted — group 2's
rows validate as members, the rater's own row merely triggers the
non-member "ignoring" warning. The quiz adapters, by contrast, reject any
rater who is not a member of the current quiz's group (line 778-781). -/
theorem c9_spreadsheet_vs_quiz_rater_membership :
    (processFile r9 sub9 = some ⟨true,
        [⟨"100", "200", 3, 3/7, 2⟩, ⟨"100", "201", 4, 4/7, 2⟩],
        ["Non-group member(s) found: 100 – ignoring"], some "100"⟩) ∧
      (∀ (expected valid : List String) (g : ℕ) (sub : QuizSubmission),
        sub.rater ∈ expected → sub.rater ∉ valid →
        processQuizSubmission expected valid g sub = QuizOutcome.skippedNotInGroup) := by
  constructor
  · decide
  · intro expected valid g sub hin hnin
    have hc1 : expected.contains sub.rater = true := by simpa using hin
    have hc2 : valid.contains sub.rater = false := by simpa using hnin
    unfold processQuizSubmission
    simp [hc1, hc2, hin, hnin]

theorem c9_spreadsheet_vs_quiz_rater_membership_witness :
    (subW.rater ∈ ["5"] ∧ subW.rater ∉ ["6"]) ∧
      processQuizSubmission ["5"] ["6"] 1 subW = QuizOutcome.skippedNotInGroup :=
  ⟨⟨by decide, by decide⟩,
   c9_spreadsheet_vs_quiz_rater_membership.2 ["5"] ["6"] 1 subW (by decide) (by decide)⟩

end WebPA
